import Mathlib

/-!
Shallow embedding of the zozz pose-evaluation runtime.

The embedded code is the first (authoritative) variant of cozz/cozz_runtime.cpp
together with the C header (OZZ_MAX_LAYERS, descriptor types) and the Zig
wrapper Instance.setLayers. The external ozz math kernels (clip sampling,
blending, local-to-model conversion, IK solving, per-joint correction) are not
part of this repository; following the specification they are treated as an
opaque Pose Kernel and are modelled from the spec where their behaviour is
needed. Machine floats are modelled as exact rationals; machine addresses are
modelled as byte offsets from a sufficiently aligned buffer base.
-/

/-- Result codes of the C API (ozz_result_t in cozz_runtime.h). -/
inductive OzzResult where
  | OZZ_OK
  | OZZ_ERR
  | OZZ_ERR_INVALID_ARGUMENT
  | OZZ_ERR_IO
  | OZZ_ERR_OZZ
  deriving DecidableEq

/-- A buffer of joint-local transforms (ozz::math::SoaTransform array), modelled
abstractly as a list of rational components. -/
abbrev Pose := List Rat

/-- A model-space matrix (ozz::math::Float4x4): 16 rational components in
column-major order (cols[c] occupies positions 4*c .. 4*c+3). -/
abbrev Mat := List Rat

/-- A quaternion correction produced by an IK solver (ozz::math::SimdQuaternion). -/
abbrev Correction := Rat × Rat × Rat × Rat

/-- ozz_vec3_t. -/
abbrev Vec3 := Rat × Rat × Rat

/-- An immutable skeleton handle (ozz_skeleton_t). `id` models the object's
address, so that the evaluator's pointer comparison `inst->skel != ws->skel`
becomes an id comparison. `num_joints` is the source accessor num_joints().
The field `localToModel` is Modelled from the spec: the external Pose Kernel
operation `localToModel(skeleton, locals) -> modelMatrices`, an arbitrary
per-skeleton function (the LocalToModelJob of the opaque math library). -/
structure Skeleton where
  id : Nat
  num_joints : Nat
  localToModel : Pose → List Mat

/-- An immutable animation clip (ozz_animation_t). `num_tracks` and `duration`
are the source accessors. The field `sampleAt` is Modelled from the spec: the
external Pose Kernel operation `sample(clip, normalizedRatio, cache) -> locals`
(the SamplingJob of the opaque math library); the sampling cache is a pure
acceleration structure and does not influence the sampled values. -/
structure AnimationClip where
  num_tracks : Nat
  duration : Rat
  sampleAt : Rat → Pose

/-- ozz_layer_mode_t. -/
inductive LayerMode where
  | OZZ_LAYER_NORMAL
  | OZZ_LAYER_ADDITIVE
  deriving DecidableEq

/-- ozz_layer_desc_t: one animation layer descriptor (a value type). -/
structure LayerDesc where
  anim : Option AnimationClip
  time_seconds : Rat
  wrap_time : Bool
  weight : Rat
  mode : LayerMode

/-- ozz_ik_kind_t. -/
inductive IkKind where
  | OZZ_IK_NONE
  | OZZ_IK_TWO_BONE
  | OZZ_IK_AIM
  deriving DecidableEq

/-- ozz_ik_job_t: one IK descriptor (a value type; tagged by `kind`). -/
structure IkJob where
  kind : IkKind
  weight : Rat
  start_joint : Int
  mid_joint : Int
  end_joint : Int
  target_ms : Vec3
  pole_ms : Vec3
  aim_joint : Int
  aim_target_ms : Vec3
  forward_axis_ls : Vec3
  up_axis_ls : Vec3

/-- Modelled from the spec: the remaining external Pose Kernel operations of §6
that the evaluator calls but whose numerics live in the opaque ozz math library:
`blendAdditive(base, addend, weight)`, `solveTwoBoneIK` (returning the start and
mid joint corrections), `solveAimIK` (returning one correction), and the
application of one correction to one joint of a local pose (the quaternion
compose-and-renormalize helper). They are arbitrary functions: the evaluator
owns only call ordering and buffer provisioning. -/
structure Kernel where
  blendAdditive : Pose → Pose → Rat → Pose
  solveTwoBone : Mat → Mat → Mat → Vec3 → Vec3 → Rat → Correction × Correction
  solveAim : Mat → Vec3 → Vec3 → Vec3 → Rat → Correction
  applyCorrection : Nat → Correction → Pose → Pose

/-- ozz_instance_t: persistent per-entity state. `layersArr`/`ikArr` model the
fixed backing arrays `layers[OZZ_MAX_LAYERS]` / `ik[OZZ_MAX_IK_JOBS]` (entries
beyond the stored counts persist but are dead), and `layer_count`/`ik_count`
the stored counts. -/
structure Instance where
  skel : Skeleton
  num_joints : Nat
  accum : Pose
  layersArr : List LayerDesc
  layer_count : Int
  ikArr : List IkJob
  ik_count : Int

/-- ozz_workspace_t: transient per-worker scratch and output buffers. -/
structure Workspace where
  skelId : Nat
  num_joints : Nat
  temp : Pose
  model : List Mat
  palette : List Rat

/-- OZZ_MAX_LAYERS (cozz_runtime.h). -/
def OZZ_MAX_LAYERS : Int := 8

/-- OZZ_MAX_IK_JOBS (cozz_runtime.h). -/
def OZZ_MAX_IK_JOBS : Int := 8

/-- ozz_instance_set_layers: null list or non-positive count stores count 0;
otherwise the count is clamped to OZZ_MAX_LAYERS and the first `count` entries
of the caller's list are copied over the backing array. -/
def ozz_instance_set_layers (inst : Instance) (layers : Option (List LayerDesc)) (count : Int) : Instance :=
  match layers with
  | none => { inst with layer_count := 0 }
  | some l =>
    if count ≤ 0 then { inst with layer_count := 0 }
    else
      let c := if OZZ_MAX_LAYERS < count then OZZ_MAX_LAYERS else count
      { inst with layer_count := c, layersArr := l.take c.toNat ++ inst.layersArr.drop c.toNat }

/-- ozz_instance_set_ik_jobs: same shape as ozz_instance_set_layers. -/
def ozz_instance_set_ik_jobs (inst : Instance) (jobs : Option (List IkJob)) (count : Int) : Instance :=
  match jobs with
  | none => { inst with ik_count := 0 }
  | some l =>
    if count ≤ 0 then { inst with ik_count := 0 }
    else
      let c := if OZZ_MAX_IK_JOBS < count then OZZ_MAX_IK_JOBS else count
      { inst with ik_count := c, ikArr := l.take c.toNat ++ inst.ikArr.drop c.toNat }

/-- The layer descriptors the evaluator can observe: the first layer_count
entries of the backing array (the evaluator's loops run i = 0 .. layer_count-1). -/
def activeLayers (i : Instance) : List LayerDesc := i.layersArr.take i.layer_count.toNat

/-- The IK descriptors the evaluator can observe. -/
def activeIk (i : Instance) : List IkJob := i.ikArr.take i.ik_count.toNat

/-- Instance.setLayers from the Zig wrapper (zozz_runtime.zig): panics (modelled
as `none`) when more than OZZ_MAX_LAYERS layers are passed, otherwise marshals
the slice and calls ozz_instance_set_layers with count = layers.len. -/
def Instance.setLayers (i : Instance) (layers : List LayerDesc) : Option Instance :=
  if OZZ_MAX_LAYERS.toNat < layers.length then none
  else some (ozz_instance_set_layers i (some layers) (layers.length : Int))

/-- align_up_uintptr. For a power-of-two alignment `a` the source mask formula
`(p + a - 1) & ~(a - 1)` equals `(p + a - 1) / a * a`. -/
def alignUp (p a : Nat) : Nat := (p + a - 1) / a * a

/-- bump_alloc over byte offsets from the buffer base (the base is modelled at
offset 0 of a sufficiently aligned buffer, so aligning the cursor address and
aligning the cursor offset agree). `bytes` is sizeof(T) * count. Returns the
aligned offset, the new cursor and the bytes left; fails when the allocation
would pass the end of the buffer. -/
def bump_alloc (pos left bytes align : Nat) : Option (Nat × Nat × Nat) :=
  let aligned := alignUp pos align
  if pos + left < aligned + bytes then none
  else some (aligned, aligned + bytes, pos + left - (aligned + bytes))

/-- The running fold of the required-bytes queries: align the running size, then
add the chunk size (the `bump` lambda of the source). -/
def chainReq : List (Nat × Nat) → Nat → Nat
  | [], b => b
  | (sz, al) :: rest, b => chainReq rest (alignUp b al + sz)

/-- A sequence of bump_alloc calls carving chunks (size, align) out of a buffer,
as the init functions do; true iff every allocation fits. -/
def chainAlloc : List (Nat × Nat) → Nat → Nat → Bool
  | [], _, _ => true
  | (sz, al) :: rest, pos, left =>
    match bump_alloc pos left sz al with
    | none => false
    | some (_, pos2, left2) => chainAlloc rest pos2 left2

/-- num_soa_from_joints. -/
def num_soa_from_joints (n : Nat) : Nat := (n + 3) / 4

/-- The sizeof/alignof platform constants the arena code uses; kept abstract
(the theorems hold for every choice with positive alignments and non-empty
header structs). -/
structure SizeParams where
  sz_instance : Nat
  al_instance : Nat
  sz_soa_transform : Nat
  al_soa_transform : Nat
  sz_workspace : Nat
  al_workspace : Nat
  sz_float4x4 : Nat
  al_float4x4 : Nat
  sz_float : Nat
  al_float : Nat

/-- The chunk list of ozz_instance_required_bytes / ozz_instance_init:
header struct, then the accumulation buffer of num_soa SoaTransforms. -/
def instanceChunks (sp : SizeParams) (n : Nat) : List (Nat × Nat) :=
  [(sp.sz_instance, sp.al_instance),
   (sp.sz_soa_transform * num_soa_from_joints n, sp.al_soa_transform)]

/-- The chunk list of ozz_workspace_required_bytes / ozz_workspace_init:
header struct, temp SoaTransforms, model Float4x4s, palette of 12*n floats. -/
def workspaceChunks (sp : SizeParams) (n : Nat) : List (Nat × Nat) :=
  [(sp.sz_workspace, sp.al_workspace),
   (sp.sz_soa_transform * num_soa_from_joints n, sp.al_soa_transform),
   (sp.sz_float4x4 * n, sp.al_float4x4),
   (sp.sz_float * (12 * n), sp.al_float)]

/-- ozz_instance_required_bytes. -/
def ozz_instance_required_bytes (sp : SizeParams) (sk : Skeleton) : Nat :=
  chainReq (instanceChunks sp sk.num_joints) 0

/-- ozz_workspace_required_bytes. -/
def ozz_workspace_required_bytes (sp : SizeParams) (sk : Skeleton) : Nat :=
  chainReq (workspaceChunks sp sk.num_joints) 0

/-- ozz_instance_init: carves the caller buffer with bump_alloc (header, accum);
on any failed allocation it returns OZZ_ERR_INVALID_ARGUMENT and no Instance is
produced. The freshly carved buffers hold unspecified bytes; the model
initializes them to []. -/
def ozz_instance_init (sp : SizeParams) (mem_bytes : Nat) (sk : Skeleton) : Except OzzResult Instance :=
  if chainAlloc (instanceChunks sp sk.num_joints) 0 mem_bytes then
    Except.ok { skel := sk, num_joints := sk.num_joints, accum := [],
                layersArr := [], layer_count := 0, ikArr := [], ik_count := 0 }
  else Except.error OzzResult.OZZ_ERR_INVALID_ARGUMENT

/-- ozz_workspace_init: carves header, temp, model and palette buffers; on any
failed allocation it returns OZZ_ERR_INVALID_ARGUMENT and no Workspace is
produced. -/
def ozz_workspace_init (sp : SizeParams) (mem_bytes : Nat) (sk : Skeleton) : Except OzzResult Workspace :=
  if chainAlloc (workspaceChunks sp sk.num_joints) 0 mem_bytes then
    Except.ok { skelId := sk.id, num_joints := sk.num_joints, temp := [], model := [], palette := [] }
  else Except.error OzzResult.OZZ_ERR_INVALID_ARGUMENT

/-- Truncation toward zero, the rounding of C's integer conversion used by
std::fmod. -/
def truncQ (q : Rat) : Int := if 0 ≤ q then ⌊q⌋ else ⌈q⌉

/-- std::fmod over exact rationals: t - d * trunc(t / d). -/
def fmodQ (t d : Rat) : Rat := t - d * (truncQ (t / d) : Rat)

/-- wrap_or_clamp (cozz_runtime.cpp lines 244-254), floats modelled as exact
rationals. -/
def wrap_or_clamp (t dur : Rat) (wrap : Bool) : Rat :=
  if dur ≤ 0 then 0
  else if wrap then
    let r := fmodQ t dur
    if r < 0 then r + dur else r
  else if t < 0 then 0
  else if dur < t then dur
  else t

/-- sample_into: null clip or track count ≠ num_joints is InvalidArgument
(returned as `none`); otherwise normalize the time, form the ratio and run the
sampling kernel. -/
def sample_into (nj : Nat) (anim : Option AnimationClip) (time_s : Rat) (wrap : Bool) : Option Pose :=
  match anim with
  | none => none
  | some a =>
    if a.num_tracks ≠ nj then none
    else
      let t := wrap_or_clamp time_s a.duration wrap
      let ratio := if 0 < a.duration then t / a.duration else 0
      some (a.sampleAt ratio)

/-- Modelled from the spec: the Pose Kernel operation
`blend(list of (locals, weight)) -> locals` for the evaluator's running
two-layer case, a weighted average of the two transform sets. -/
def blend2 (p : Pose) (wp : Rat) (q : Pose) (wq : Rat) : Pose :=
  List.zipWith (fun a b => (wp * a + wq * b) / (wp + wq)) p q

/-- The state threaded through the two blending passes of ozz_eval_model_3x4:
have_normal / sum_normal are the locals of the source, accum is inst->accum,
temp is ws->temp, and samples is a ghost counter of executed clip samplings. -/
structure BlendSt where
  have_normal : Bool
  sum_normal : Rat
  accum : Pose
  temp : Pose
  samples : Nat

/-- Pass 1 of ozz_eval_model_3x4 (normal-layer accumulation): skip entries with
an absent clip, non-positive weight, or additive mode; sample the first
qualifying layer directly into accum; stream-blend each later qualifying layer
against the running weight. A failed sample aborts with the state at failure. -/
def normalPass (nj : Nat) : List LayerDesc → BlendSt → Except (OzzResult × BlendSt) BlendSt
  | [], st => Except.ok st
  | L :: rest, st =>
    if L.anim.isNone ∨ L.weight ≤ 0 then normalPass nj rest st
    else if L.mode = LayerMode.OZZ_LAYER_ADDITIVE then normalPass nj rest st
    else
      match sample_into nj L.anim L.time_seconds L.wrap_time with
      | none => Except.error (OzzResult.OZZ_ERR_INVALID_ARGUMENT, st)
      | some p =>
        if st.have_normal then
          normalPass nj rest
            { have_normal := true, sum_normal := st.sum_normal + L.weight,
              accum := blend2 st.accum st.sum_normal p L.weight, temp := p,
              samples := st.samples + 1 }
        else
          normalPass nj rest
            { have_normal := true, sum_normal := L.weight, accum := p, temp := p,
              samples := st.samples + 1 }

/-- Pass 2 of ozz_eval_model_3x4 (additive-layer accumulation): only additive
entries with a clip and positive weight; each is sampled into temp and composed
onto the evolving accum at weight L.weight (base weight 1). -/
def additivePass (k : Kernel) (nj : Nat) : List LayerDesc → BlendSt → Except (OzzResult × BlendSt) BlendSt
  | [], st => Except.ok st
  | L :: rest, st =>
    if L.anim.isNone ∨ L.weight ≤ 0 then additivePass k nj rest st
    else if L.mode ≠ LayerMode.OZZ_LAYER_ADDITIVE then additivePass k nj rest st
    else
      match sample_into nj L.anim L.time_seconds L.wrap_time with
      | none => Except.error (OzzResult.OZZ_ERR_INVALID_ARGUMENT, st)
      | some p =>
        additivePass k nj rest
          { st with accum := k.blendAdditive st.accum p L.weight, temp := p,
                    samples := st.samples + 1 }

/-- Reading one matrix of the model-space snapshot (ws->model[j]). -/
def mgetD (model : List Mat) (j : Int) : Mat := model.getD j.toNat []

/-- One iteration of the IK loop of ozz_eval_model_3x4: skip non-positive
weight; for an aim job skip an out-of-range joint, else solve against the
snapshot and apply the correction; for a two-bone job skip if any of the three
joints is out of range, else solve and apply the start then the mid correction. -/
def ikStep (k : Kernel) (nj : Nat) (model : List Mat) (accum : Pose) (J : IkJob) : Pose :=
  if J.weight ≤ 0 then accum
  else
    match J.kind with
    | IkKind.OZZ_IK_AIM =>
      if J.aim_joint < 0 ∨ (nj : Int) ≤ J.aim_joint then accum
      else
        let corr := k.solveAim (mgetD model J.aim_joint) J.aim_target_ms J.forward_axis_ls J.up_axis_ls J.weight
        k.applyCorrection J.aim_joint.toNat corr accum
    | IkKind.OZZ_IK_TWO_BONE =>
      if J.start_joint < 0 ∨ J.mid_joint < 0 ∨ J.end_joint < 0 then accum
      else if (nj : Int) ≤ J.start_joint ∨ (nj : Int) ≤ J.mid_joint ∨ (nj : Int) ≤ J.end_joint then accum
      else
        let c := k.solveTwoBone (mgetD model J.start_joint) (mgetD model J.mid_joint) (mgetD model J.end_joint) J.target_ms J.pole_ms J.weight
        k.applyCorrection J.mid_joint.toNat c.2 (k.applyCorrection J.start_joint.toNat c.1 accum)
    | IkKind.OZZ_IK_NONE => accum

/-- The IK loop: all descriptors in stored order against the single model-space
snapshot, corrections applied in place to the accumulation buffer. -/
def ikPass (k : Kernel) (nj : Nat) (model : List Mat) (jobs : List IkJob) (accum : Pose) : Pose :=
  jobs.foldl (ikStep k nj model) accum

/-- store_3x4_col_major: pack the x, y, z components of the four columns of a
column-major 4x4 matrix into 12 floats (Store3PtrU of each column). -/
def store_3x4_col_major (m : Mat) : List Rat :=
  [m.getD 0 0, m.getD 1 0, m.getD 2 0,
   m.getD 4 0, m.getD 5 0, m.getD 6 0,
   m.getD 8 0, m.getD 9 0, m.getD 10 0,
   m.getD 12 0, m.getD 13 0, m.getD 14 0]

/-- The final palette pack: one 3x4 block per joint in joint-index order. -/
def paletteOf (nj : Nat) (model : List Mat) : List Rat :=
  ((List.range nj).map (fun i => store_3x4_col_major (model.getD i []))).flatten

/-- The full outcome of one evaluation: the result code, the Instance (accum
possibly mutated), the Workspace (temp/model/palette possibly mutated), and the
ghost count of executed clip samplings. -/
structure EvalOut where
  result : OzzResult
  inst : Instance
  ws : Workspace
  samples : Nat

/-- ozz_eval_model_3x4 (cozz_runtime.cpp lines 341-487): precondition checks,
normal-layer accumulation, the no-base-pose check, additive accumulation, the
optional IK step against one model-space snapshot, and the final local-to-model
conversion plus palette pack. On failure the buffers already written stay as
they are (stale) and the palette is untouched. -/
def ozz_eval_model_3x4 (k : Kernel) (inst : Instance) (ws : Workspace) : EvalOut :=
  if inst.skel.id ≠ ws.skelId then ⟨OzzResult.OZZ_ERR_INVALID_ARGUMENT, inst, ws, 0⟩
  else if inst.num_joints ≠ ws.num_joints then ⟨OzzResult.OZZ_ERR_INVALID_ARGUMENT, inst, ws, 0⟩
  else if inst.layer_count ≤ 0 then ⟨OzzResult.OZZ_ERR_INVALID_ARGUMENT, inst, ws, 0⟩
  else
    match normalPass inst.num_joints (activeLayers inst) ⟨false, 0, inst.accum, ws.temp, 0⟩ with
    | Except.error (r, st) =>
      ⟨r, { inst with accum := st.accum }, { ws with temp := st.temp }, st.samples⟩
    | Except.ok st =>
      if st.have_normal = false then
        ⟨OzzResult.OZZ_ERR_INVALID_ARGUMENT, { inst with accum := st.accum },
         { ws with temp := st.temp }, st.samples⟩
      else
        match additivePass k inst.num_joints (activeLayers inst) st with
        | Except.error (r, st2) =>
          ⟨r, { inst with accum := st2.accum }, { ws with temp := st2.temp }, st2.samples⟩
        | Except.ok st2 =>
          let accum2 :=
            if 0 < inst.ik_count then
              ikPass k inst.num_joints (inst.skel.localToModel st2.accum) (activeIk inst) st2.accum
            else st2.accum
          let model2 := inst.skel.localToModel accum2
          ⟨OzzResult.OZZ_OK, { inst with accum := accum2 },
           { ws with temp := st2.temp, model := model2, palette := paletteOf inst.num_joints model2 },
           st2.samples⟩

/-- One mutation of an Instance through the public API, for invariants over
call sequences. -/
inductive InstOp where
  | set_layers (layers : Option (List LayerDesc)) (count : Int)
  | set_ik_jobs (jobs : Option (List IkJob)) (count : Int)
  | eval (k : Kernel) (ws : Workspace)

/-- Apply one API call to an Instance. -/
def applyInstOp (i : Instance) : InstOp → Instance
  | InstOp.set_layers l c => ozz_instance_set_layers i l c
  | InstOp.set_ik_jobs j c => ozz_instance_set_ik_jobs i j c
  | InstOp.eval k w => (ozz_eval_model_3x4 k i w).inst

/-- A trivial concrete Pose Kernel used to instantiate witnesses. -/
def kernel0 : Kernel :=
  { blendAdditive := fun b _ _ => b,
    solveTwoBone := fun _ _ _ _ _ _ => ((0, 0, 0, 0), (0, 0, 0, 0)),
    solveAim := fun _ _ _ _ _ => (0, 0, 0, 0),
    applyCorrection := fun _ _ p => p }

/-- A concrete one-joint skeleton used to instantiate witnesses. -/
def skel0 : Skeleton := { id := 7, num_joints := 1, localToModel := fun p => [p] }

/-- A concrete clip with one track used to instantiate witnesses. -/
def clip0 : AnimationClip := { num_tracks := 1, duration := 1, sampleAt := fun _ => [3] }

/-- A qualifying normal layer over clip0. -/
def layer0 : LayerDesc :=
  { anim := some clip0, time_seconds := 1/2, wrap_time := true, weight := 1,
    mode := LayerMode.OZZ_LAYER_NORMAL }

/-- A concrete instance with one normal layer and no IK jobs. -/
def inst0 : Instance :=
  { skel := skel0, num_joints := 1, accum := [0], layersArr := [layer0],
    layer_count := 1, ikArr := [], ik_count := 0 }

/-- A concrete workspace matching skel0, with a sentinel palette. -/
def ws0 : Workspace :=
  { skelId := 7, num_joints := 1, temp := [0], model := [], palette := [9] }

/-- A layer whose weight is zero (not qualifying as a base pose). -/
def layerZ : LayerDesc := { layer0 with weight := 0 }

/-- A concrete instance whose only layer has weight 0. -/
def instC1 : Instance := { inst0 with layersArr := [layerZ] }

/-- The zero vector. -/
def vec0 : Vec3 := (0, 0, 0)

/-- An aim IK descriptor whose aim joint (5) is out of range for skel0 (1 joint). -/
def ikBad : IkJob :=
  { kind := IkKind.OZZ_IK_AIM, weight := 1, start_joint := 0, mid_joint := 0,
    end_joint := 0, target_ms := vec0, pole_ms := vec0, aim_joint := 5,
    aim_target_ms := vec0, forward_axis_ls := vec0, up_axis_ls := vec0 }

/-- inst0 with the out-of-range IK descriptor installed. -/
def instIk : Instance := { inst0 with ikArr := [ikBad], ik_count := 1 }

/-- A concrete choice of platform layout constants (x86-64 values). -/
def sp0 : SizeParams :=
  { sz_instance := 2120, al_instance := 16, sz_soa_transform := 160,
    al_soa_transform := 16, sz_workspace := 48, al_workspace := 8,
    sz_float4x4 := 64, al_float4x4 := 16, sz_float := 4, al_float := 4 }

/-- A normal-mode layer descriptor over a given clip, time, wrap flag, weight. -/
def mkNormalLayer (a : AnimationClip) (t : Rat) (wr : Bool) (wgt : Rat) : LayerDesc :=
  { anim := some a, time_seconds := t, wrap_time := wr, weight := wgt,
    mode := LayerMode.OZZ_LAYER_NORMAL }

/-- An IK descriptor references a joint outside [0, N) relevant to its kind. -/
def ikOutOfRange (nj : Nat) (d : IkJob) : Prop :=
  (d.kind = IkKind.OZZ_IK_AIM ∧ (d.aim_joint < 0 ∨ (nj : Int) ≤ d.aim_joint)) ∨
  (d.kind = IkKind.OZZ_IK_TWO_BONE ∧
    (d.start_joint < 0 ∨ d.mid_joint < 0 ∨ d.end_joint < 0 ∨
     (nj : Int) ≤ d.start_joint ∨ (nj : Int) ≤ d.mid_joint ∨ (nj : Int) ≤ d.end_joint))

/-- Relation between two blend states that started from possibly different
buffer contents: the control data agree, and once a base pose has been written
the buffers agree as well. -/
def StR (st st' : BlendSt) : Prop :=
  st.have_normal = st'.have_normal ∧ st.sum_normal = st'.sum_normal ∧
  st.samples = st'.samples ∧
  (st.have_normal = true → st.accum = st'.accum ∧ st.temp = st'.temp)

/-- Lift StR to pass outcomes: same shape, same error code, related states. -/
def OutR : Except (OzzResult × BlendSt) BlendSt → Except (OzzResult × BlendSt) BlendSt → Prop
  | Except.ok a, Except.ok b => StR a b
  | Except.error (r, a), Except.error (s, b) => r = s ∧ StR a b
  | Except.ok _, Except.error _ => False
  | Except.error _, Except.ok _ => False

/-- The descriptor-count invariant of an Instance. -/
def CountsOk (i : Instance) : Prop :=
  0 ≤ i.layer_count ∧ i.layer_count ≤ OZZ_MAX_LAYERS ∧
  0 ≤ i.ik_count ∧ i.ik_count ≤ OZZ_MAX_IK_JOBS

/-- A list of layers none of which qualifies as a normal base-pose layer is
passed over by the normal pass without sampling or touching the state. -/
theorem normalPass_skip_all (nj : Nat) (L : List LayerDesc) (st : BlendSt)
    (h : ∀ l ∈ L, l.anim.isNone ∨ l.weight ≤ 0 ∨ l.mode = LayerMode.OZZ_LAYER_ADDITIVE) :
    normalPass nj L st = Except.ok st := by
  induction L with
  | nil => rfl
  | cons l rest ih =>
    have hl := h l (by simp)
    have hrest : ∀ x ∈ rest, x.anim.isNone ∨ x.weight ≤ 0 ∨ x.mode = LayerMode.OZZ_LAYER_ADDITIVE :=
      fun x hx => h x (List.mem_cons_of_mem l hx)
    unfold normalPass
    rcases hl with h1 | h1 | h1
    · rw [if_pos (Or.inl h1)]
      exact ih hrest
    · rw [if_pos (Or.inr h1)]
      exact ih hrest
    · by_cases hq : l.anim.isNone ∨ l.weight ≤ 0
      · rw [if_pos hq]
        exact ih hrest
      · rw [if_neg hq, if_pos h1]
        exact ih hrest

/-- A list of layers none of which is an active additive layer is passed over
by the additive pass without sampling or touching the state. -/
theorem additivePass_skip_all (k : Kernel) (nj : Nat) (L : List LayerDesc) (st : BlendSt)
    (h : ∀ l ∈ L, l.anim.isNone ∨ l.weight ≤ 0 ∨ l.mode ≠ LayerMode.OZZ_LAYER_ADDITIVE) :
    additivePass k nj L st = Except.ok st := by
  induction L with
  | nil => rfl
  | cons l rest ih =>
    have hl := h l (by simp)
    have hrest : ∀ x ∈ rest, x.anim.isNone ∨ x.weight ≤ 0 ∨ x.mode ≠ LayerMode.OZZ_LAYER_ADDITIVE :=
      fun x hx => h x (List.mem_cons_of_mem l hx)
    unfold additivePass
    rcases hl with h1 | h1 | h1
    · rw [if_pos (Or.inl h1)]
      exact ih hrest
    · rw [if_pos (Or.inr h1)]
      exact ih hrest
    · by_cases hq : l.anim.isNone ∨ l.weight ≤ 0
      · rw [if_pos hq]
        exact ih hrest
      · rw [if_neg hq, if_pos h1]
        exact ih hrest

/-- C1: if the layer list contains no normal-mode entry with a present clip and
positive weight, ozz_eval_model_3x4 returns OZZ_ERR_INVALID_ARGUMENT, no clip
is sampled, and the palette buffer is exactly its pre-call contents. -/
theorem claim_C1_no_base_pose (k : Kernel) (i : Instance) (w : Workspace)
    (h : ∀ L ∈ activeLayers i,
      ¬(L.mode = LayerMode.OZZ_LAYER_NORMAL ∧ L.anim.isSome ∧ 0 < L.weight)) :
    (ozz_eval_model_3x4 k i w).result = OzzResult.OZZ_ERR_INVALID_ARGUMENT ∧
    (ozz_eval_model_3x4 k i w).samples = 0 ∧
    (ozz_eval_model_3x4 k i w).ws.palette = w.palette := by
  have hskip : ∀ l ∈ activeLayers i,
      l.anim.isNone ∨ l.weight ≤ 0 ∨ l.mode = LayerMode.OZZ_LAYER_ADDITIVE := by
    intro l hl
    have hnl := h l hl
    cases ha : l.anim with
    | none => exact Or.inl (by simp [ha])
    | some a =>
      by_cases hw : l.weight ≤ 0
      · exact Or.inr (Or.inl hw)
      · cases hm : l.mode with
        | OZZ_LAYER_NORMAL =>
          exact absurd ⟨hm, by simp [ha], lt_of_not_le hw⟩ hnl
        | OZZ_LAYER_ADDITIVE => exact Or.inr (Or.inr rfl)
  unfold ozz_eval_model_3x4
  by_cases h1 : i.skel.id ≠ w.skelId
  · simp [h1]
  · rw [if_neg h1]
    by_cases h2 : i.num_joints ≠ w.num_joints
    · simp [h2]
    · rw [if_neg h2]
      by_cases h3 : i.layer_count ≤ 0
      · simp [h3]
      · rw [if_neg h3, normalPass_skip_all i.num_joints (activeLayers i) _ hskip]
        exact ⟨rfl, rfl, rfl⟩

/-- C1 witness: a concrete instance whose single layer has weight 0. -/
theorem claim_C1_witness :
    (ozz_eval_model_3x4 kernel0 instC1 ws0).result = OzzResult.OZZ_ERR_INVALID_ARGUMENT ∧
    (ozz_eval_model_3x4 kernel0 instC1 ws0).samples = 0 ∧
    (ozz_eval_model_3x4 kernel0 instC1 ws0).ws.palette = ws0.palette :=
  claim_C1_no_base_pose kernel0 instC1 ws0 (by decide)

/-- C9: an Instance and a Workspace disagreeing on the skeleton (modelled by
the skeleton id, the pointer identity) or on the joint count make
ozz_eval_model_3x4 fail with OZZ_ERR_INVALID_ARGUMENT before any sampling,
leaving both consumers untouched. -/
theorem claim_C9_skeleton_mismatch (k : Kernel) (i : Instance) (w : Workspace)
    (h : i.skel.id ≠ w.skelId ∨ i.num_joints ≠ w.num_joints) :
    (ozz_eval_model_3x4 k i w).result = OzzResult.OZZ_ERR_INVALID_ARGUMENT ∧
    (ozz_eval_model_3x4 k i w).samples = 0 ∧
    (ozz_eval_model_3x4 k i w).inst = i ∧
    (ozz_eval_model_3x4 k i w).ws = w := by
  rcases h with h | h
  · simp [ozz_eval_model_3x4, h]
  · unfold ozz_eval_model_3x4
    by_cases h1 : i.skel.id ≠ w.skelId
    · simp [h1]
    · rw [if_neg h1, if_pos h]
      exact ⟨rfl, rfl, rfl, rfl⟩

/-- C9 witness: workspace with a different skeleton id. -/
theorem claim_C9_witness :
    (ozz_eval_model_3x4 kernel0 inst0 { ws0 with skelId := 8 }).result =
      OzzResult.OZZ_ERR_INVALID_ARGUMENT ∧
    (ozz_eval_model_3x4 kernel0 inst0 { ws0 with skelId := 8 }).samples = 0 ∧
    (ozz_eval_model_3x4 kernel0 inst0 { ws0 with skelId := 8 }).inst = inst0 ∧
    (ozz_eval_model_3x4 kernel0 inst0 { ws0 with skelId := 8 }).ws = { ws0 with skelId := 8 } :=
  claim_C9_skeleton_mismatch kernel0 inst0 { ws0 with skelId := 8 } (Or.inl (by decide))

/-- An IK descriptor whose relevant joint index is out of range is skipped by
the IK loop: the step leaves the accumulation buffer unchanged and no solver
runs. -/
theorem ikStep_out_of_range (k : Kernel) (nj : Nat) (model : List Mat) (accum : Pose)
    (d : IkJob) (h : ikOutOfRange nj d) :
    ikStep k nj model accum d = accum := by
  unfold ikStep
  by_cases hw : d.weight ≤ 0
  · rw [if_pos hw]
  · rw [if_neg hw]
    rcases h with ⟨hk, hj⟩ | ⟨hk, hj⟩
    · rw [hk]
      simp only [if_pos hj]
    · rw [hk]
      by_cases h1 : d.start_joint < 0 ∨ d.mid_joint < 0 ∨ d.end_joint < 0
      · simp only [if_pos h1]
      · have h2 : (nj : Int) ≤ d.start_joint ∨ (nj : Int) ≤ d.mid_joint ∨ (nj : Int) ≤ d.end_joint := by
          rcases hj with hj | hj | hj | hj | hj | hj
          · exact absurd (Or.inl hj) h1
          · exact absurd (Or.inr (Or.inl hj)) h1
          · exact absurd (Or.inr (Or.inr hj)) h1
          · exact Or.inl hj
          · exact Or.inr (Or.inl hj)
          · exact Or.inr (Or.inr hj)
        simp only [if_neg h1, if_pos h2]

/-- C2 counterexample: a concrete instance carrying an aim IK descriptor whose
aim joint (5) is outside [0, 1); ozz_eval_model_3x4 does not return
InvalidArgument, contradicting the claim. -/
theorem claim_C2_counterexample :
    (ozz_eval_model_3x4 kernel0 instIk ws0).result ≠ OzzResult.OZZ_ERR_INVALID_ARGUMENT ∧
    (ozz_eval_model_3x4 kernel0 instIk ws0).result = OzzResult.OZZ_OK := by
  constructor
  · decide
  · decide

/-- Dropping an out-of-range IK descriptor from anywhere in the job list does
not change the result of the IK loop. -/
theorem ikPass_middle_skip (k : Kernel) (nj : Nat) (model : List Mat) (a : Pose)
    (pre post : List IkJob) (d : IkJob) (hd : ikOutOfRange nj d) :
    ikPass k nj model (pre ++ d :: post) a = ikPass k nj model (pre ++ post) a := by
  unfold ikPass
  rw [List.foldl_append, List.foldl_append, List.foldl_cons,
    ikStep_out_of_range k nj model _ d hd]

/-- C2 amended: an IK descriptor whose relevant joint index (start, mid or end
for a two-bone job, the aim joint for an aim job) lies outside [0, N) is
silently skipped by ozz_eval_model_3x4 rather than reported: the evaluation
behaves exactly as if the descriptor were absent (same result code, same
sampling, same accumulation buffer, same workspace). -/
theorem claim_C2_out_of_range_ik_skipped (k : Kernel) (i : Instance) (w : Workspace)
    (pre post : List IkJob) (d : IkJob) (hd : ikOutOfRange i.num_joints d) :
    (ozz_eval_model_3x4 k { i with ikArr := pre ++ d :: post, ik_count := ((pre ++ d :: post).length : Int) } w).result =
      (ozz_eval_model_3x4 k { i with ikArr := pre ++ post, ik_count := ((pre ++ post).length : Int) } w).result ∧
    (ozz_eval_model_3x4 k { i with ikArr := pre ++ d :: post, ik_count := ((pre ++ d :: post).length : Int) } w).samples =
      (ozz_eval_model_3x4 k { i with ikArr := pre ++ post, ik_count := ((pre ++ post).length : Int) } w).samples ∧
    (ozz_eval_model_3x4 k { i with ikArr := pre ++ d :: post, ik_count := ((pre ++ d :: post).length : Int) } w).inst.accum =
      (ozz_eval_model_3x4 k { i with ikArr := pre ++ post, ik_count := ((pre ++ post).length : Int) } w).inst.accum ∧
    (ozz_eval_model_3x4 k { i with ikArr := pre ++ d :: post, ik_count := ((pre ++ d :: post).length : Int) } w).ws =
      (ozz_eval_model_3x4 k { i with ikArr := pre ++ post, ik_count := ((pre ++ post).length : Int) } w).ws := by
  unfold ozz_eval_model_3x4
  dsimp only [activeLayers, activeIk]
  by_cases h1 : i.skel.id ≠ w.skelId
  · rw [if_pos h1, if_pos h1]
    exact ⟨rfl, rfl, rfl, rfl⟩
  · rw [if_neg h1, if_neg h1]
    by_cases h2 : i.num_joints ≠ w.num_joints
    · rw [if_pos h2, if_pos h2]
      exact ⟨rfl, rfl, rfl, rfl⟩
    · rw [if_neg h2, if_neg h2]
      by_cases h3 : i.layer_count ≤ 0
      · rw [if_pos h3, if_pos h3]
        exact ⟨rfl, rfl, rfl, rfl⟩
      · rw [if_neg h3, if_neg h3]
        cases hnp : normalPass i.num_joints (i.layersArr.take i.layer_count.toNat)
            ⟨false, 0, i.accum, w.temp, 0⟩ with
        | error e =>
          obtain ⟨r, st⟩ := e
          exact ⟨rfl, rfl, rfl, rfl⟩
        | ok st =>
          dsimp only
          by_cases hb : st.have_normal = false
          · rw [if_pos hb, if_pos hb]
            exact ⟨rfl, rfl, rfl, rfl⟩
          · rw [if_neg hb, if_neg hb]
            cases hap : additivePass k i.num_joints (i.layersArr.take i.layer_count.toNat) st with
            | error e =>
              obtain ⟨r, st2⟩ := e
              exact ⟨rfl, rfl, rfl, rfl⟩
            | ok st2 =>
              dsimp only
              have hlen1 : (0 : Int) < ((pre ++ d :: post).length : Int) := by
                have : 0 < (pre ++ d :: post).length := by simp
                exact_mod_cast this
              have htake1 : ((((pre ++ d :: post).length : Int)).toNat) = (pre ++ d :: post).length := by
                exact_mod_cast Int.toNat_natCast _
              have htake2 : ((((pre ++ post).length : Int)).toNat) = (pre ++ post).length := by
                exact_mod_cast Int.toNat_natCast _
              simp only [if_pos hlen1, htake1, htake2, List.take_length]
              by_cases hpp : (pre ++ post).length = 0
              · have hpre : pre = [] := by
                  rcases List.append_eq_nil.mp (List.length_eq_zero.mp hpp) with ⟨h4, h5⟩
                  exact h4
                have hpost : post = [] := by
                  rcases List.append_eq_nil.mp (List.length_eq_zero.mp hpp) with ⟨h4, h5⟩
                  exact h5
                subst hpre
                subst hpost
                have hnotpos : ¬((0 : Int) < (([] ++ [] : List IkJob).length : Int)) := by decide
                simp only [if_neg hnotpos]
                have hstep : ikPass k i.num_joints (i.skel.localToModel st2.accum) ([] ++ [d]) st2.accum = st2.accum := by
                  rw [List.nil_append]
                  unfold ikPass
                  rw [List.foldl_cons, ikStep_out_of_range k i.num_joints _ _ d hd, List.foldl_nil]
                rw [hstep]
                exact ⟨trivial, trivial, rfl, rfl⟩
              · have hlen2 : (0 : Int) < (((pre ++ post)).length : Int) := by
                  have hp : 0 < (pre ++ post).length := Nat.pos_of_ne_zero hpp
                  exact_mod_cast hp
                simp only [if_pos hlen2]
                rw [ikPass_middle_skip k i.num_joints _ _ pre post d hd]
                exact ⟨trivial, trivial, rfl, rfl⟩

/-- C2 amended witness: concrete evaluation with and without the out-of-range
descriptor agree. -/
theorem claim_C2_witness :
    (ozz_eval_model_3x4 kernel0 { inst0 with ikArr := [] ++ ikBad :: [], ik_count := (([] ++ ikBad :: [] : List IkJob).length : Int) } ws0).result =
      (ozz_eval_model_3x4 kernel0 { inst0 with ikArr := [] ++ [], ik_count := ((([] ++ [] : List IkJob)).length : Int) } ws0).result ∧
    (ozz_eval_model_3x4 kernel0 { inst0 with ikArr := [] ++ ikBad :: [], ik_count := (([] ++ ikBad :: [] : List IkJob).length : Int) } ws0).samples =
      (ozz_eval_model_3x4 kernel0 { inst0 with ikArr := [] ++ [], ik_count := ((([] ++ [] : List IkJob)).length : Int) } ws0).samples ∧
    (ozz_eval_model_3x4 kernel0 { inst0 with ikArr := [] ++ ikBad :: [], ik_count := (([] ++ ikBad :: [] : List IkJob).length : Int) } ws0).inst.accum =
      (ozz_eval_model_3x4 kernel0 { inst0 with ikArr := [] ++ [], ik_count := ((([] ++ [] : List IkJob)).length : Int) } ws0).inst.accum ∧
    (ozz_eval_model_3x4 kernel0 { inst0 with ikArr := [] ++ ikBad :: [], ik_count := (([] ++ ikBad :: [] : List IkJob).length : Int) } ws0).ws =
      (ozz_eval_model_3x4 kernel0 { inst0 with ikArr := [] ++ [], ik_count := ((([] ++ [] : List IkJob)).length : Int) } ws0).ws :=
  claim_C2_out_of_range_ik_skipped kernel0 inst0 ws0 [] [] ikBad (Or.inl ⟨rfl, by decide⟩)

/-- Setting layers through the C API with the caller's list length as count
stores exactly the first 8 entries (all of them when the list is short). -/
theorem active_set_layers (i : Instance) (l : List LayerDesc) :
    activeLayers (ozz_instance_set_layers i (some l) (l.length : Int)) = l.take 8 := by
  unfold ozz_instance_set_layers activeLayers
  dsimp only
  by_cases h0 : (l.length : Int) ≤ 0
  · rw [if_pos h0]
    have hn : l.length = 0 := by omega
    have hl : l = [] := List.length_eq_zero.mp hn
    subst hl
    simp
  · rw [if_neg h0]
    dsimp only
    by_cases h8 : OZZ_MAX_LAYERS < (l.length : Int)
    · rw [if_pos h8]
      have h8' : 8 < l.length := by
        unfold OZZ_MAX_LAYERS at h8
        exact_mod_cast h8
      have ht : OZZ_MAX_LAYERS.toNat = 8 := rfl
      rw [ht]
      rw [List.take_append_of_le_length]
      · rw [List.take_take]
        simp
      · rw [List.length_take]
        omega
    · rw [if_neg h8]
      have h8' : l.length ≤ 8 := by
        unfold OZZ_MAX_LAYERS at h8
        omega
      have ht : ((l.length : Int)).toNat = l.length := Int.toNat_natCast _
      rw [ht]
      rw [List.take_append_of_le_length]
      · rw [List.take_take]
        simp [List.take_of_length_le h8']
      · rw [List.length_take]
        omega

/-- Setting IK jobs through the C API with the caller's list length as count
stores exactly the first 8 entries. -/
theorem active_set_ik (i : Instance) (l : List IkJob) :
    activeIk (ozz_instance_set_ik_jobs i (some l) (l.length : Int)) = l.take 8 := by
  unfold ozz_instance_set_ik_jobs activeIk
  dsimp only
  by_cases h0 : (l.length : Int) ≤ 0
  · rw [if_pos h0]
    have hn : l.length = 0 := by omega
    have hl : l = [] := List.length_eq_zero.mp hn
    subst hl
    simp
  · rw [if_neg h0]
    dsimp only
    by_cases h8 : OZZ_MAX_IK_JOBS < (l.length : Int)
    · rw [if_pos h8]
      have h8' : 8 < l.length := by
        unfold OZZ_MAX_IK_JOBS at h8
        exact_mod_cast h8
      have ht : OZZ_MAX_IK_JOBS.toNat = 8 := rfl
      rw [ht]
      rw [List.take_append_of_le_length]
      · rw [List.take_take]
        simp
      · rw [List.length_take]
        omega
    · rw [if_neg h8]
      have h8' : l.length ≤ 8 := by
        unfold OZZ_MAX_IK_JOBS at h8
        omega
      have ht : ((l.length : Int)).toNat = l.length := Int.toNat_natCast _
      rw [ht]
      rw [List.take_append_of_le_length]
      · rw [List.take_take]
        simp [List.take_of_length_le h8']
      · rw [List.length_take]
        omega

/-- C4 counterexample: the Zig wrapper Instance.setLayers aborts (panics,
modelled as none) on a 9-element list instead of truncating it. -/
theorem claim_C4_counterexample :
    Instance.setLayers inst0 (List.replicate 9 layer0) = none := rfl

/-- C4 amended: the C-level ozz_instance_set_layers / ozz_instance_set_ik_jobs
replace the active descriptor set wholesale with a value copy of the caller's
list truncated to the first 8 entries; the Zig wrapper Instance.setLayers
forwards lists of at most 8 entries to the C call and panics (modelled as
none) on longer lists instead of truncating. -/
theorem claim_C4_set_layers_truncate (i : Instance) (l : List LayerDesc) (j : List IkJob) :
    activeLayers (ozz_instance_set_layers i (some l) (l.length : Int)) = l.take 8 ∧
    activeIk (ozz_instance_set_ik_jobs i (some j) (j.length : Int)) = j.take 8 ∧
    Instance.setLayers i l =
      (if l.length ≤ 8 then some (ozz_instance_set_layers i (some l) (l.length : Int)) else none) := by
  refine ⟨active_set_layers i l, active_set_ik i j, ?_⟩
  unfold Instance.setLayers
  have ht : OZZ_MAX_LAYERS.toNat = 8 := rfl
  rw [ht]
  by_cases h : 8 < l.length
  · rw [if_pos h, if_neg (by omega)]
  · rw [if_neg h, if_pos (by omega)]

/-- Aligning up never moves the cursor backwards (positive alignment). -/
theorem alignUp_ge (p a : Nat) (ha : 0 < a) : p ≤ alignUp p a := by
  unfold alignUp
  have h := Nat.div_add_mod (p + a - 1) a
  have h2 : (p + a - 1) % a < a := Nat.mod_lt _ ha
  have h3 : (p + a - 1) / a * a = a * ((p + a - 1) / a) := Nat.mul_comm _ _
  rw [h3]
  omega

/-- The required-bytes fold is monotone in its accumulator start. -/
theorem chainReq_mono (items : List (Nat × Nat)) (b : Nat)
    (h : ∀ x ∈ items, 0 < x.2) : b ≤ chainReq items b := by
  induction items generalizing b with
  | nil => exact Nat.le_refl b
  | cons x rest ih =>
    obtain ⟨sz, al⟩ := x
    have h1 : 0 < al := h (sz, al) (by simp)
    have h2 : b ≤ alignUp b al + sz :=
      Nat.le_trans (alignUp_ge b al h1) (Nat.le_add_right _ _)
    exact Nat.le_trans h2 (ih _ (fun y hy => h y (by simp [hy])))

/-- A chain of bump_alloc calls succeeds exactly when the buffer end is not
passed, i.e. when the required-bytes fold from the current position fits. -/
theorem chainAlloc_iff (items : List (Nat × Nat)) (pos left : Nat)
    (h : ∀ x ∈ items, 0 < x.2) :
    chainAlloc items pos left = true ↔ chainReq items pos ≤ pos + left := by
  induction items generalizing pos left with
  | nil =>
    simp only [chainAlloc, chainReq]
    constructor
    · intro _
      omega
    · intro _
      trivial
  | cons x rest ih =>
    obtain ⟨sz, al⟩ := x
    have hal : 0 < al := h (sz, al) (by simp)
    have hrest : ∀ y ∈ rest, 0 < y.2 := fun y hy => h y (by simp [hy])
    unfold chainAlloc bump_alloc
    dsimp only
    by_cases hc : pos + left < alignUp pos al + sz
    · rw [if_pos hc]
      have hge := chainReq_mono rest (alignUp pos al + sz) hrest
      simp only [chainReq]
      constructor
      · intro hfalse
        exact absurd hfalse (by simp)
      · intro hle
        exfalso
        omega
    · rw [if_neg hc]
      simp only [chainReq]
      rw [ih (alignUp pos al + sz) (pos + left - (alignUp pos al + sz)) hrest]
      constructor
      · intro hle
        omega
      · intro hle
        omega

/-- The required-bytes fold of a chunk list with a non-empty head chunk is
positive. -/
theorem chainReq_head_pos (sz al : Nat) (rest : List (Nat × Nat)) (hsz : 0 < sz)
    (hrest : ∀ x ∈ rest, 0 < x.2) : 0 < chainReq ((sz, al) :: rest) 0 := by
  have hm := chainReq_mono rest (alignUp 0 al + sz) hrest
  simp only [chainReq]
  omega

/-- C3: for every skeleton and every choice of layout constants with positive
alignments and non-empty header structs, initializing on a sufficiently aligned
buffer of exactly the matching required-bytes query succeeds, and on a buffer
one byte smaller fails with OZZ_ERR_INVALID_ARGUMENT producing no consumer, for
both ozz_instance_init and ozz_workspace_init. -/
theorem claim_C3_arena_sizing_exact (sp : SizeParams) (sk : Skeleton)
    (h1 : 0 < sp.al_instance) (h2 : 0 < sp.al_soa_transform)
    (h3 : 0 < sp.al_workspace) (h4 : 0 < sp.al_float4x4) (h5 : 0 < sp.al_float)
    (h6 : 0 < sp.sz_instance) (h7 : 0 < sp.sz_workspace) :
    (∃ inst, ozz_instance_init sp (ozz_instance_required_bytes sp sk) sk = Except.ok inst) ∧
    ozz_instance_init sp (ozz_instance_required_bytes sp sk - 1) sk =
      Except.error OzzResult.OZZ_ERR_INVALID_ARGUMENT ∧
    (∃ ws, ozz_workspace_init sp (ozz_workspace_required_bytes sp sk) sk = Except.ok ws) ∧
    ozz_workspace_init sp (ozz_workspace_required_bytes sp sk - 1) sk =
      Except.error OzzResult.OZZ_ERR_INVALID_ARGUMENT := by
  have hposI : ∀ x ∈ instanceChunks sp sk.num_joints, 0 < x.2 := by
    intro x hx
    simp only [instanceChunks, List.mem_cons, List.not_mem_nil, or_false] at hx
    rcases hx with rfl | rfl
    · exact h1
    · exact h2
  have hposItail : ∀ x ∈ [(sp.sz_soa_transform * num_soa_from_joints sk.num_joints, sp.al_soa_transform)], 0 < x.2 := by
    intro x hx
    simp only [List.mem_singleton] at hx
    rcases hx with rfl
    exact h2
  have hposW : ∀ x ∈ workspaceChunks sp sk.num_joints, 0 < x.2 := by
    intro x hx
    simp only [workspaceChunks, List.mem_cons, List.not_mem_nil, or_false] at hx
    rcases hx with rfl | rfl | rfl | rfl
    · exact h3
    · exact h2
    · exact h4
    · exact h5
  have hposWtail : ∀ x ∈ [(sp.sz_soa_transform * num_soa_from_joints sk.num_joints, sp.al_soa_transform),
      (sp.sz_float4x4 * sk.num_joints, sp.al_float4x4),
      (sp.sz_float * (12 * sk.num_joints), sp.al_float)], 0 < x.2 := by
    intro x hx
    simp only [List.mem_cons, List.not_mem_nil, or_false] at hx
    rcases hx with rfl | rfl | rfl
    · exact h2
    · exact h4
    · exact h5
  have hreqI : 0 < ozz_instance_required_bytes sp sk := by
    unfold ozz_instance_required_bytes instanceChunks
    exact chainReq_head_pos _ _ _ h6 hposItail
  have hreqW : 0 < ozz_workspace_required_bytes sp sk := by
    unfold ozz_workspace_required_bytes workspaceChunks
    exact chainReq_head_pos _ _ _ h7 hposWtail
  have hallocI : chainAlloc (instanceChunks sp sk.num_joints) 0 (ozz_instance_required_bytes sp sk) = true := by
    rw [chainAlloc_iff _ _ _ hposI]
    unfold ozz_instance_required_bytes
    omega
  have hfailI : ¬(chainAlloc (instanceChunks sp sk.num_joints) 0 (ozz_instance_required_bytes sp sk - 1) = true) := by
    rw [chainAlloc_iff _ _ _ hposI]
    unfold ozz_instance_required_bytes at hreqI ⊢
    omega
  have hallocW : chainAlloc (workspaceChunks sp sk.num_joints) 0 (ozz_workspace_required_bytes sp sk) = true := by
    rw [chainAlloc_iff _ _ _ hposW]
    unfold ozz_workspace_required_bytes
    omega
  have hfailW : ¬(chainAlloc (workspaceChunks sp sk.num_joints) 0 (ozz_workspace_required_bytes sp sk - 1) = true) := by
    rw [chainAlloc_iff _ _ _ hposW]
    unfold ozz_workspace_required_bytes at hreqW ⊢
    omega
  refine ⟨?_, ?_, ?_, ?_⟩
  · apply Exists.intro
    unfold ozz_instance_init
    rw [if_pos hallocI]
  · unfold ozz_instance_init
    rw [if_neg hfailI]
  · apply Exists.intro
    unfold ozz_workspace_init
    rw [if_pos hallocW]
  · unfold ozz_workspace_init
    rw [if_neg hfailW]

/-- C3 witness: concrete layout constants and the one-joint skeleton. -/
theorem claim_C3_witness :
    (∃ inst, ozz_instance_init sp0 (ozz_instance_required_bytes sp0 skel0) skel0 = Except.ok inst) ∧
    ozz_instance_init sp0 (ozz_instance_required_bytes sp0 skel0 - 1) skel0 =
      Except.error OzzResult.OZZ_ERR_INVALID_ARGUMENT ∧
    (∃ ws, ozz_workspace_init sp0 (ozz_workspace_required_bytes sp0 skel0) skel0 = Except.ok ws) ∧
    ozz_workspace_init sp0 (ozz_workspace_required_bytes sp0 skel0 - 1) skel0 =
      Except.error OzzResult.OZZ_ERR_INVALID_ARGUMENT :=
  claim_C3_arena_sizing_exact sp0 skel0 (by decide) (by decide) (by decide) (by decide)
    (by decide) (by decide) (by decide)

/-- Fractional part after truncation toward zero of a non-negative number. -/
theorem truncQ_sub_nonneg (q : Rat) (h : 0 ≤ q) :
    0 ≤ q - (truncQ q : Rat) ∧ q - (truncQ q : Rat) < 1 := by
  unfold truncQ
  rw [if_pos h]
  refine ⟨sub_nonneg.mpr (Int.floor_le q), ?_⟩
  have hq := Int.lt_floor_add_one q
  push_cast at hq ⊢
  linarith

/-- Fractional part after truncation toward zero of a negative number. -/
theorem truncQ_sub_nonpos (q : Rat) (h : q < 0) :
    -1 < q - (truncQ q : Rat) ∧ q - (truncQ q : Rat) ≤ 0 := by
  unfold truncQ
  rw [if_neg (not_le.mpr h)]
  refine ⟨?_, sub_nonpos.mpr (Int.le_ceil q)⟩
  have hq := Int.ceil_lt_add_one q
  push_cast at hq ⊢
  linarith

/-- fmodQ as the divisor times the truncated fractional part of the quotient. -/
theorem fmodQ_eq (t d : Rat) (hd : d ≠ 0) :
    fmodQ t d = d * (t / d - (truncQ (t / d) : Rat)) := by
  unfold fmodQ
  rw [mul_sub, mul_div_cancel₀ _ hd]

/-- fmod stays strictly below a positive divisor. -/
theorem fmodQ_lt (t d : Rat) (hd : 0 < d) : fmodQ t d < d := by
  rw [fmodQ_eq t d hd.ne']
  rcases le_or_lt 0 (t / d) with h | h
  · exact mul_lt_of_lt_one_right hd (truncQ_sub_nonneg _ h).2
  · have hb := truncQ_sub_nonpos _ h
    have hle := mul_nonpos_of_nonneg_of_nonpos hd.le hb.2
    exact lt_of_le_of_lt hle hd

/-- fmod stays strictly above the negated positive divisor. -/
theorem neg_lt_fmodQ (t d : Rat) (hd : 0 < d) : -d < fmodQ t d := by
  rw [fmodQ_eq t d hd.ne']
  rcases le_or_lt 0 (t / d) with h | h
  · have hb := mul_nonneg hd.le (truncQ_sub_nonneg _ h).1
    linarith
  · have hb := truncQ_sub_nonpos _ h
    have := mul_lt_mul_of_pos_left hb.1 hd
    linarith

/-- Adding the divisor once and taking fmod again is the identity on [0, d). -/
theorem fmodQ_small_nonneg (r d : Rat) (hd : 0 < d) (h0 : 0 ≤ r) (h1 : r < d) :
    fmodQ (r + d) d = r := by
  have hv : (r + d) / d = r / d + 1 := by
    rw [add_div, div_self hd.ne']
  have h01 : 0 ≤ r / d := div_nonneg h0 hd.le
  have h11 : r / d < 1 := (div_lt_one hd).mpr h1
  have hfl : truncQ ((r + d) / d) = 1 := by
    unfold truncQ
    rw [if_pos (by rw [hv]; linarith), hv, Int.floor_add_one,
      Int.floor_eq_zero_iff.mpr (Set.mem_Ico.mpr ⟨h01, h11⟩)]
    omega
  unfold fmodQ
  rw [hfl]
  push_cast
  ring

/-- Adding the divisor once and taking fmod maps (-d, 0) to itself shifted. -/
theorem fmodQ_small_neg (r d : Rat) (hd : 0 < d) (h0 : -d < r) (h1 : r < 0) :
    fmodQ (r + d) d = r + d := by
  have hv : (r + d) / d = r / d + 1 := by
    rw [add_div, div_self hd.ne']
  have h01 : r / d < 0 := div_neg_of_neg_of_pos h1 hd
  have h11 : -1 < r / d := by
    rw [lt_div_iff₀ hd, neg_one_mul]
    exact h0
  have hfl : truncQ ((r + d) / d) = 0 := by
    unfold truncQ
    rw [if_pos (by rw [hv]; linarith), hv]
    have hm1 : ⌊r / d⌋ = -1 := by
      rw [Int.floor_eq_iff]
      constructor
      · push_cast
        linarith
      · push_cast
        linarith
    rw [Int.floor_add_one, hm1]
    ring
  unfold fmodQ
  rw [hfl]
  push_cast
  ring

/-- C6: wrap_or_clamp returns 0 for non-positive duration, the double-fmod
normalization ((t mod d) + d) mod d when wrapping, and clamp(t, 0, d)
otherwise. -/
theorem claim_C6_wrap_or_clamp_spec (t d : Rat) (wrap : Bool) :
    wrap_or_clamp t d wrap =
      (if d ≤ 0 then 0
       else if wrap then fmodQ (fmodQ t d + d) d
       else max 0 (min t d)) := by
  unfold wrap_or_clamp
  by_cases hd : d ≤ 0
  · rw [if_pos hd, if_pos hd]
  · rw [if_neg hd, if_neg hd]
    have hd' : 0 < d := lt_of_not_le hd
    cases wrap with
    | true =>
      rw [if_pos rfl, if_pos rfl]
      dsimp only
      by_cases hr : fmodQ t d < 0
      · rw [if_pos hr, fmodQ_small_neg (fmodQ t d) d hd' (neg_lt_fmodQ t d hd') hr]
      · rw [if_neg hr,
          fmodQ_small_nonneg (fmodQ t d) d hd' (not_lt.mp hr) (fmodQ_lt t d hd')]
    | false =>
      have hfalse : ¬(false = true) := by simp
      rw [if_neg hfalse, if_neg hfalse]
      by_cases ht : t < 0
      · rw [if_pos ht, min_eq_left (le_of_lt (lt_trans ht hd')),
          max_eq_left (le_of_lt ht)]
      · rw [if_neg ht]
        by_cases ht2 : d < t
        · rw [if_pos ht2, min_eq_right (le_of_lt ht2), max_eq_right hd'.le]
        · rw [if_neg ht2, min_eq_left (not_lt.mp ht2), max_eq_right (not_lt.mp ht)]

/-- Blending a pose with itself at positive weights is the identity. -/
theorem blend2_self (p : Pose) (wp wq : Rat) (hp : 0 < wp) (hq : 0 < wq) :
    blend2 p wp p wq = p := by
  have hne : wp + wq ≠ 0 := by positivity
  unfold blend2
  induction p with
  | nil => rfl
  | cons x xs ih =>
    rw [List.zipWith_cons_cons, ih]
    congr 1
    rw [div_eq_iff hne]
    ring

/-- C5: two normal layers sampling the same clip at the same time, at any
positive weights, evaluate to the same result and the same palette as a single
normal layer of that clip and time: blending identical poses is a no-op. -/
theorem claim_C5_identical_pose_blend_noop (k : Kernel) (i : Instance) (w : Workspace)
    (a : AnimationClip) (t : Rat) (wr : Bool) (w1 w2 : Rat)
    (hw1 : 0 < w1) (hw2 : 0 < w2) :
    (ozz_eval_model_3x4 k
        { i with layersArr := [mkNormalLayer a t wr w1, mkNormalLayer a t wr w2],
                 layer_count := 2 } w).result =
      (ozz_eval_model_3x4 k
        { i with layersArr := [mkNormalLayer a t wr w1], layer_count := 1 } w).result ∧
    (ozz_eval_model_3x4 k
        { i with layersArr := [mkNormalLayer a t wr w1, mkNormalLayer a t wr w2],
                 layer_count := 2 } w).ws.palette =
      (ozz_eval_model_3x4 k
        { i with layersArr := [mkNormalLayer a t wr w1], layer_count := 1 } w).ws.palette := by
  have hfb : ¬(false = true) := by simp
  have hq1 : ¬((mkNormalLayer a t wr w1).anim.isNone = true ∨ (mkNormalLayer a t wr w1).weight ≤ 0) := by
    simp only [mkNormalLayer, Option.isNone_some, Bool.false_eq_true, false_or]
    exact not_le.mpr hw1
  have hq2 : ¬((mkNormalLayer a t wr w2).anim.isNone = true ∨ (mkNormalLayer a t wr w2).weight ≤ 0) := by
    simp only [mkNormalLayer, Option.isNone_some, Bool.false_eq_true, false_or]
    exact not_le.mpr hw2
  have hm1 : ¬((mkNormalLayer a t wr w1).mode = LayerMode.OZZ_LAYER_ADDITIVE) := by
    simp [mkNormalLayer]
  have hm2 : ¬((mkNormalLayer a t wr w2).mode = LayerMode.OZZ_LAYER_ADDITIVE) := by
    simp [mkNormalLayer]
  have hA1 : (mkNormalLayer a t wr w1).anim = some a := rfl
  have hA2 : (mkNormalLayer a t wr w2).anim = some a := rfl
  have hT1 : (mkNormalLayer a t wr w1).time_seconds = t := rfl
  have hT2 : (mkNormalLayer a t wr w2).time_seconds = t := rfl
  have hW1 : (mkNormalLayer a t wr w1).wrap_time = wr := rfl
  have hW2 : (mkNormalLayer a t wr w2).wrap_time = wr := rfl
  unfold ozz_eval_model_3x4
  dsimp only [activeLayers]
  by_cases h1 : i.skel.id ≠ w.skelId
  · rw [if_pos h1, if_pos h1]
    exact ⟨rfl, rfl⟩
  · rw [if_neg h1, if_neg h1]
    by_cases h2 : i.num_joints ≠ w.num_joints
    · rw [if_pos h2, if_pos h2]
      exact ⟨rfl, rfl⟩
    · rw [if_neg h2, if_neg h2]
      have hc2 : ¬((2 : Int) ≤ 0) := by decide
      have hc1 : ¬((1 : Int) ≤ 0) := by decide
      rw [if_neg hc2, if_neg hc1]
      have htk2 : List.take ((2 : Int)).toNat [mkNormalLayer a t wr w1, mkNormalLayer a t wr w2] =
          [mkNormalLayer a t wr w1, mkNormalLayer a t wr w2] := rfl
      have htk1 : List.take ((1 : Int)).toNat [mkNormalLayer a t wr w1] =
          [mkNormalLayer a t wr w1] := rfl
      rw [htk2, htk1]
      by_cases hT : a.num_tracks = i.num_joints
      · have hp : sample_into i.num_joints (some a) t wr =
            some (a.sampleAt (if 0 < a.duration then wrap_or_clamp t a.duration wr / a.duration else 0)) := by
          unfold sample_into
          dsimp only
          rw [if_neg (by simp [hT])]
        generalize hpv : a.sampleAt (if 0 < a.duration then wrap_or_clamp t a.duration wr / a.duration else 0) = p at hp
        have hnp2 : normalPass i.num_joints
            [mkNormalLayer a t wr w1, mkNormalLayer a t wr w2]
            ⟨false, 0, i.accum, w.temp, 0⟩ =
            Except.ok ⟨true, w1 + w2, blend2 p w1 p w2, p, 2⟩ := by
          unfold normalPass
          rw [if_neg hq1, if_neg hm1, hA1, hT1, hW1, hp]
          dsimp only
          rw [if_neg hfb]
          unfold normalPass
          rw [if_neg hq2, if_neg hm2, hA2, hT2, hW2, hp]
          dsimp only
          rw [if_pos rfl]
          rfl
        have hnp1 : normalPass i.num_joints [mkNormalLayer a t wr w1]
            ⟨false, 0, i.accum, w.temp, 0⟩ = Except.ok ⟨true, w1, p, p, 1⟩ := by
          unfold normalPass
          rw [if_neg hq1, if_neg hm1, hA1, hT1, hW1, hp]
          dsimp only
          rw [if_neg hfb]
          rfl
        rw [hnp2, hnp1, blend2_self p w1 w2 hw1 hw2]
        dsimp only
        have hskip2 : ∀ l ∈ [mkNormalLayer a t wr w1, mkNormalLayer a t wr w2],
            l.anim.isNone = true ∨ l.weight ≤ 0 ∨ l.mode ≠ LayerMode.OZZ_LAYER_ADDITIVE := by
          intro l hl
          simp only [List.mem_cons, List.not_mem_nil, or_false] at hl
          rcases hl with rfl | rfl
          · exact Or.inr (Or.inr (by simp [mkNormalLayer]))
          · exact Or.inr (Or.inr (by simp [mkNormalLayer]))
        have hskip1 : ∀ l ∈ [mkNormalLayer a t wr w1],
            l.anim.isNone = true ∨ l.weight ≤ 0 ∨ l.mode ≠ LayerMode.OZZ_LAYER_ADDITIVE := by
          intro l hl
          simp only [List.mem_singleton] at hl
          rcases hl with rfl
          exact Or.inr (Or.inr (by simp [mkNormalLayer]))
        rw [additivePass_skip_all k i.num_joints _ ⟨true, w1 + w2, p, p, 2⟩ hskip2,
          additivePass_skip_all k i.num_joints _ ⟨true, w1, p, p, 1⟩ hskip1]
        exact ⟨rfl, rfl⟩
      · have hs : sample_into i.num_joints (some a) t wr = none := by
          unfold sample_into
          dsimp only
          rw [if_pos hT]
        have hnp2 : normalPass i.num_joints
            [mkNormalLayer a t wr w1, mkNormalLayer a t wr w2]
            ⟨false, 0, i.accum, w.temp, 0⟩ =
            Except.error (OzzResult.OZZ_ERR_INVALID_ARGUMENT, ⟨false, 0, i.accum, w.temp, 0⟩) := by
          unfold normalPass
          rw [if_neg hq1, if_neg hm1, hA1, hT1, hW1, hs]
        have hnp1 : normalPass i.num_joints [mkNormalLayer a t wr w1]
            ⟨false, 0, i.accum, w.temp, 0⟩ =
            Except.error (OzzResult.OZZ_ERR_INVALID_ARGUMENT, ⟨false, 0, i.accum, w.temp, 0⟩) := by
          unfold normalPass
          rw [if_neg hq1, if_neg hm1, hA1, hT1, hW1, hs]
        rw [hnp2, hnp1]
        exact ⟨rfl, rfl⟩

/-- C5 witness: concrete two-layer versus one-layer evaluation over clip0. -/
theorem claim_C5_witness :
    (ozz_eval_model_3x4 kernel0
        { inst0 with layersArr := [mkNormalLayer clip0 0 true 1, mkNormalLayer clip0 0 true 2],
                     layer_count := 2 } ws0).result =
      (ozz_eval_model_3x4 kernel0
        { inst0 with layersArr := [mkNormalLayer clip0 0 true 1], layer_count := 1 } ws0).result ∧
    (ozz_eval_model_3x4 kernel0
        { inst0 with layersArr := [mkNormalLayer clip0 0 true 1, mkNormalLayer clip0 0 true 2],
                     layer_count := 2 } ws0).ws.palette =
      (ozz_eval_model_3x4 kernel0
        { inst0 with layersArr := [mkNormalLayer clip0 0 true 1], layer_count := 1 } ws0).ws.palette :=
  claim_C5_identical_pose_blend_noop kernel0 inst0 ws0 clip0 0 true 1 2
    (by norm_num) (by norm_num)

/-- The normal pass only ever fails with OZZ_ERR_INVALID_ARGUMENT (a failed
sample_into). -/
theorem normalPass_error_inv (nj : Nat) :
    ∀ (L : List LayerDesc) (st : BlendSt) (r : OzzResult) (st' : BlendSt),
      normalPass nj L st = Except.error (r, st') →
      r = OzzResult.OZZ_ERR_INVALID_ARGUMENT := by
  intro L
  induction L with
  | nil =>
    intro st r st' h
    exact absurd h (by simp [normalPass])
  | cons l rest ih =>
    intro st r st' h
    unfold normalPass at h
    split at h
    · exact ih _ _ _ h
    · split at h
      · exact ih _ _ _ h
      · split at h
        · simp only [Except.error.injEq, Prod.mk.injEq] at h
          exact h.1.symm
        · split at h
          · exact ih _ _ _ h
          · exact ih _ _ _ h

/-- The additive pass only ever fails with OZZ_ERR_INVALID_ARGUMENT. -/
theorem additivePass_error_inv (k : Kernel) (nj : Nat) :
    ∀ (L : List LayerDesc) (st : BlendSt) (r : OzzResult) (st' : BlendSt),
      additivePass k nj L st = Except.error (r, st') →
      r = OzzResult.OZZ_ERR_INVALID_ARGUMENT := by
  intro L
  induction L with
  | nil =>
    intro st r st' h
    exact absurd h (by simp [additivePass])
  | cons l rest ih =>
    intro st r st' h
    unfold additivePass at h
    split at h
    · exact ih _ _ _ h
    · split at h
      · exact ih _ _ _ h
      · split at h
        · simp only [Except.error.injEq, Prod.mk.injEq] at h
          exact h.1.symm
        · exact ih _ _ _ h

/-- The normal pass preserves the buffer-independence relation: starting from
two states that agree on the control data (and on the buffers once a base pose
exists), the outcomes have the same shape, the same error code, and related
final states. -/
theorem normalPass_rel (nj : Nat) (L : List LayerDesc) :
    ∀ st st', StR st st' → OutR (normalPass nj L st) (normalPass nj L st') := by
  induction L with
  | nil =>
    intro st st' h
    exact h
  | cons l rest ih =>
    intro st st' h
    unfold normalPass
    by_cases h1 : l.anim.isNone = true ∨ l.weight ≤ 0
    · rw [if_pos h1, if_pos h1]
      exact ih _ _ h
    · rw [if_neg h1, if_neg h1]
      by_cases h2 : l.mode = LayerMode.OZZ_LAYER_ADDITIVE
      · rw [if_pos h2, if_pos h2]
        exact ih _ _ h
      · rw [if_neg h2, if_neg h2]
        cases hs : sample_into nj l.anim l.time_seconds l.wrap_time with
        | none => exact ⟨rfl, h⟩
        | some p =>
          dsimp only
          obtain ⟨hh, hsum, hsamp, hacc⟩ := h
          by_cases hb : st.have_normal = true
          · have hb' : st'.have_normal = true := hh ▸ hb
            obtain ⟨ha, htp⟩ := hacc hb
            rw [if_pos hb, if_pos hb']
            refine ih _ _ ⟨rfl, ?_, ?_, fun _ => ⟨?_, rfl⟩⟩
            · rw [hsum]
            · rw [hsamp]
            · rw [ha, hsum]
          · have hb' : ¬(st'.have_normal = true) := by
              rw [← hh]
              exact hb
            rw [if_neg hb, if_neg hb']
            refine ih _ _ ⟨rfl, rfl, ?_, fun _ => ⟨rfl, rfl⟩⟩
            rw [hsamp]

/-- ozz_eval_model_3x4 only mutates the accumulation buffer of the Instance and
the temp/model/palette buffers of the Workspace: descriptors, counts and the
skeleton references pass through. -/
theorem eval_inst_components (k : Kernel) (i : Instance) (w : Workspace) :
    (ozz_eval_model_3x4 k i w).inst.skel = i.skel ∧
    (ozz_eval_model_3x4 k i w).inst.num_joints = i.num_joints ∧
    (ozz_eval_model_3x4 k i w).inst.layersArr = i.layersArr ∧
    (ozz_eval_model_3x4 k i w).inst.layer_count = i.layer_count ∧
    (ozz_eval_model_3x4 k i w).inst.ikArr = i.ikArr ∧
    (ozz_eval_model_3x4 k i w).inst.ik_count = i.ik_count ∧
    (ozz_eval_model_3x4 k i w).ws.skelId = w.skelId ∧
    (ozz_eval_model_3x4 k i w).ws.num_joints = w.num_joints := by
  unfold ozz_eval_model_3x4
  repeat' split
  all_goals exact ⟨rfl, rfl, rfl, rfl, rfl, rfl, rfl, rfl⟩

/-- Evaluation congruence: the outcome of ozz_eval_model_3x4 depends only on
the skeleton, the joint counts, the stored counts and the active descriptor
lists; the initial contents of the accumulation, temp, model and palette
buffers never influence the result code or the sample count, and on success
they do not influence any produced buffer either. -/
theorem eval_congr (k : Kernel) (i i' : Instance) (w w' : Workspace)
    (hsk : i.skel = i'.skel) (hnj : i.num_joints = i'.num_joints)
    (hlc : i.layer_count = i'.layer_count) (hic : i.ik_count = i'.ik_count)
    (hal : activeLayers i = activeLayers i') (hai : activeIk i = activeIk i')
    (hwsk : w.skelId = w'.skelId) (hwnj : w.num_joints = w'.num_joints) :
    (ozz_eval_model_3x4 k i w).result = (ozz_eval_model_3x4 k i' w').result ∧
    (ozz_eval_model_3x4 k i w).samples = (ozz_eval_model_3x4 k i' w').samples ∧
    ((ozz_eval_model_3x4 k i w).result = OzzResult.OZZ_OK →
      (ozz_eval_model_3x4 k i w).inst.accum = (ozz_eval_model_3x4 k i' w').inst.accum ∧
      (ozz_eval_model_3x4 k i w).ws.temp = (ozz_eval_model_3x4 k i' w').ws.temp ∧
      (ozz_eval_model_3x4 k i w).ws.model = (ozz_eval_model_3x4 k i' w').ws.model ∧
      (ozz_eval_model_3x4 k i w).ws.palette = (ozz_eval_model_3x4 k i' w').ws.palette) := by
  unfold ozz_eval_model_3x4
  rw [← hsk, ← hnj, ← hlc, ← hic, ← hal, ← hai, ← hwsk, ← hwnj]
  by_cases h1 : i.skel.id ≠ w.skelId
  · rw [if_pos h1, if_pos h1]
    exact ⟨rfl, rfl, fun habs => OzzResult.noConfusion habs⟩
  · rw [if_neg h1, if_neg h1]
    by_cases h2 : i.num_joints ≠ w.num_joints
    · rw [if_pos h2, if_pos h2]
      exact ⟨rfl, rfl, fun habs => OzzResult.noConfusion habs⟩
    · rw [if_neg h2, if_neg h2]
      by_cases h3 : i.layer_count ≤ 0
      · rw [if_pos h3, if_pos h3]
        exact ⟨rfl, rfl, fun habs => OzzResult.noConfusion habs⟩
      · rw [if_neg h3, if_neg h3]
        have hrel := normalPass_rel i.num_joints (activeLayers i)
          ⟨false, 0, i.accum, w.temp, 0⟩ ⟨false, 0, i'.accum, w'.temp, 0⟩
          ⟨rfl, rfl, rfl, fun hcon => Bool.noConfusion hcon⟩
        cases hnp : normalPass i.num_joints (activeLayers i) ⟨false, 0, i.accum, w.temp, 0⟩ with
        | error e =>
          cases hnp' : normalPass i.num_joints (activeLayers i) ⟨false, 0, i'.accum, w'.temp, 0⟩ with
          | error e' =>
            rw [hnp, hnp'] at hrel
            obtain ⟨r, st⟩ := e
            obtain ⟨r', st'⟩ := e'
            obtain ⟨hr, hst⟩ := hrel
            have hinv := normalPass_error_inv i.num_joints _ _ _ _ hnp
            refine ⟨hr, hst.2.2.1, fun habs => ?_⟩
            rw [hinv] at habs
            exact OzzResult.noConfusion habs
          | ok st' =>
            rw [hnp, hnp'] at hrel
            obtain ⟨r, st⟩ := e
            exact hrel.elim
        | ok st =>
          cases hnp' : normalPass i.num_joints (activeLayers i) ⟨false, 0, i'.accum, w'.temp, 0⟩ with
          | error e' =>
            rw [hnp, hnp'] at hrel
            obtain ⟨r', st'⟩ := e'
            exact hrel.elim
          | ok st' =>
            rw [hnp, hnp'] at hrel
            dsimp only
            by_cases hbn : st.have_normal = false
            · have hbn' : st'.have_normal = false := hrel.1 ▸ hbn
              rw [if_pos hbn, if_pos hbn']
              exact ⟨rfl, hrel.2.2.1, fun habs => OzzResult.noConfusion habs⟩
            · have hst : st = st' := by
                obtain ⟨hh, hsum, hsamp, hacc⟩ := hrel
                have hb : st.have_normal = true := by
                  revert hbn
                  cases st.have_normal <;> simp
                obtain ⟨ha, htp⟩ := hacc hb
                cases st
                cases st'
                dsimp only at hh hsum hsamp ha htp
                rw [hh, hsum, hsamp, ha, htp]
              have hbn' : ¬(st'.have_normal = false) := by
                rw [← hst]
                exact hbn
              rw [← hst, if_neg hbn, if_neg hbn]
              cases hap : additivePass k i.num_joints (activeLayers i) st with
              | error e2 =>
                obtain ⟨r2, st2⟩ := e2
                have hinv := additivePass_error_inv k i.num_joints _ _ _ _ hap
                refine ⟨rfl, rfl, fun habs => ?_⟩
                rw [hinv] at habs
                exact OzzResult.noConfusion habs
              | ok st2 =>
                exact ⟨rfl, rfl, fun _ => ⟨rfl, rfl, rfl, rfl⟩⟩

/-- On any outcome other than OZZ_OK the palette buffer is left exactly as it
was before the call. -/
theorem eval_ok_or_palette (k : Kernel) (i : Instance) (w : Workspace) :
    (ozz_eval_model_3x4 k i w).result = OzzResult.OZZ_OK ∨
    (ozz_eval_model_3x4 k i w).ws.palette = w.palette := by
  unfold ozz_eval_model_3x4
  repeat' split
  all_goals first
  | exact Or.inl rfl
  | exact Or.inr rfl

/-- C8: determinism over consecutive calls. Evaluating the state left behind by
one call (identical layers, IK jobs, clips and times; only the buffers were
rewritten) yields the same result code and bit-identical palette contents as
the first call, whether it succeeded or failed. -/
theorem claim_C8_determinism (k : Kernel) (i : Instance) (w : Workspace) :
    (ozz_eval_model_3x4 k (ozz_eval_model_3x4 k i w).inst (ozz_eval_model_3x4 k i w).ws).result =
      (ozz_eval_model_3x4 k i w).result ∧
    (ozz_eval_model_3x4 k (ozz_eval_model_3x4 k i w).inst (ozz_eval_model_3x4 k i w).ws).ws.palette =
      (ozz_eval_model_3x4 k i w).ws.palette := by
  obtain ⟨e1, e2, e3, e4, e5, e6, e7, e8⟩ := eval_inst_components k i w
  have hal : activeLayers i = activeLayers (ozz_eval_model_3x4 k i w).inst := by
    unfold activeLayers
    rw [e3, e4]
  have hai : activeIk i = activeIk (ozz_eval_model_3x4 k i w).inst := by
    unfold activeIk
    rw [e5, e6]
  obtain ⟨hr, hs, himp⟩ := eval_congr k i (ozz_eval_model_3x4 k i w).inst
    w (ozz_eval_model_3x4 k i w).ws e1.symm e2.symm e4.symm e6.symm hal hai e7.symm e8.symm
  refine ⟨hr.symm, ?_⟩
  by_cases hok : (ozz_eval_model_3x4 k i w).result = OzzResult.OZZ_OK
  · exact (himp hok).2.2.2.symm
  · rcases eval_ok_or_palette k (ozz_eval_model_3x4 k i w).inst (ozz_eval_model_3x4 k i w).ws with hok2 | hpal
    · exact absurd (hr.trans hok2) hok
    · exact hpal

/-- Evaluation reads an Instance only through its skeleton, joint count,
accumulation buffer, stored counts and active descriptor prefixes: two
instances agreeing on those evaluate identically against the same workspace
(the dead backing-array entries beyond the counts are never read). -/
theorem eval_reads_active (k : Kernel) (w : Workspace) (i i' : Instance)
    (hsk : i.skel = i'.skel) (hnj : i.num_joints = i'.num_joints)
    (hacc : i.accum = i'.accum)
    (hlc : i.layer_count = i'.layer_count) (hic : i.ik_count = i'.ik_count)
    (hal : activeLayers i = activeLayers i') (hai : activeIk i = activeIk i') :
    (ozz_eval_model_3x4 k i w).result = (ozz_eval_model_3x4 k i' w).result ∧
    (ozz_eval_model_3x4 k i w).samples = (ozz_eval_model_3x4 k i' w).samples ∧
    (ozz_eval_model_3x4 k i w).ws = (ozz_eval_model_3x4 k i' w).ws ∧
    (ozz_eval_model_3x4 k i w).inst.accum = (ozz_eval_model_3x4 k i' w).inst.accum := by
  unfold ozz_eval_model_3x4
  rw [← hsk, ← hnj, ← hlc, ← hic, ← hal, ← hai, ← hacc]
  by_cases h1 : i.skel.id ≠ w.skelId
  · rw [if_pos h1, if_pos h1]
    exact ⟨rfl, rfl, rfl, hacc⟩
  · rw [if_neg h1, if_neg h1]
    by_cases h2 : i.num_joints ≠ w.num_joints
    · rw [if_pos h2, if_pos h2]
      exact ⟨rfl, rfl, rfl, hacc⟩
    · rw [if_neg h2, if_neg h2]
      by_cases h3 : i.layer_count ≤ 0
      · rw [if_pos h3, if_pos h3]
        exact ⟨rfl, rfl, rfl, hacc⟩
      · rw [if_neg h3, if_neg h3]
        cases hnp : normalPass i.num_joints (activeLayers i) ⟨false, 0, i.accum, w.temp, 0⟩ with
        | error e =>
          obtain ⟨r, st⟩ := e
          exact ⟨rfl, rfl, rfl, rfl⟩
        | ok st =>
          dsimp only
          by_cases hb : st.have_normal = false
          · rw [if_pos hb, if_pos hb]
            exact ⟨rfl, rfl, rfl, rfl⟩
          · rw [if_neg hb, if_neg hb]
            cases hap : additivePass k i.num_joints (activeLayers i) st with
            | error e =>
              obtain ⟨r, st2⟩ := e
              exact ⟨rfl, rfl, rfl, rfl⟩
            | ok st2 =>
              exact ⟨rfl, rfl, rfl, rfl⟩

/-- Every single API call preserves the descriptor-count invariant. -/
theorem applyInstOp_counts (i : Instance) (op : InstOp) (h : CountsOk i) :
    CountsOk (applyInstOp i op) := by
  cases op with
  | set_layers l c =>
    cases l with
    | none =>
      exact ⟨le_refl (0 : Int), (by decide : (0 : Int) ≤ OZZ_MAX_LAYERS), h.2.2.1, h.2.2.2⟩
    | some l =>
      show CountsOk (ozz_instance_set_layers i (some l) c)
      unfold ozz_instance_set_layers
      dsimp only
      by_cases hc : c ≤ 0
      · rw [if_pos hc]
        exact ⟨le_refl (0 : Int), (by decide : (0 : Int) ≤ OZZ_MAX_LAYERS), h.2.2.1, h.2.2.2⟩
      · rw [if_neg hc]
        have hbounds : 0 ≤ (if OZZ_MAX_LAYERS < c then OZZ_MAX_LAYERS else c) ∧
            (if OZZ_MAX_LAYERS < c then OZZ_MAX_LAYERS else c) ≤ OZZ_MAX_LAYERS := by
          unfold OZZ_MAX_LAYERS
          by_cases h8 : (8 : Int) < c
          · rw [if_pos h8]
            exact ⟨(by decide : (0 : Int) ≤ 8), le_refl _⟩
          · rw [if_neg h8]
            omega
        exact ⟨hbounds.1, hbounds.2, h.2.2.1, h.2.2.2⟩
  | set_ik_jobs l c =>
    cases l with
    | none =>
      exact ⟨h.1, h.2.1, le_refl (0 : Int), (by decide : (0 : Int) ≤ OZZ_MAX_IK_JOBS)⟩
    | some l =>
      show CountsOk (ozz_instance_set_ik_jobs i (some l) c)
      unfold ozz_instance_set_ik_jobs
      dsimp only
      by_cases hc : c ≤ 0
      · rw [if_pos hc]
        exact ⟨h.1, h.2.1, le_refl (0 : Int), (by decide : (0 : Int) ≤ OZZ_MAX_IK_JOBS)⟩
      · rw [if_neg hc]
        have hbounds : 0 ≤ (if OZZ_MAX_IK_JOBS < c then OZZ_MAX_IK_JOBS else c) ∧
            (if OZZ_MAX_IK_JOBS < c then OZZ_MAX_IK_JOBS else c) ≤ OZZ_MAX_IK_JOBS := by
          unfold OZZ_MAX_IK_JOBS
          by_cases h8 : (8 : Int) < c
          · rw [if_pos h8]
            exact ⟨(by decide : (0 : Int) ≤ 8), le_refl _⟩
          · rw [if_neg h8]
            omega
        exact ⟨h.1, h.2.1, hbounds.1, hbounds.2⟩
  | eval k w =>
    obtain ⟨_, _, _, e4, _, e6, _, _⟩ := eval_inst_components k i w
    refine ⟨?_, ?_, ?_, ?_⟩
    · rw [show (applyInstOp i (InstOp.eval k w)).layer_count = (ozz_eval_model_3x4 k i w).inst.layer_count from rfl, e4]
      exact h.1
    · rw [show (applyInstOp i (InstOp.eval k w)).layer_count = (ozz_eval_model_3x4 k i w).inst.layer_count from rfl, e4]
      exact h.2.1
    · rw [show (applyInstOp i (InstOp.eval k w)).ik_count = (ozz_eval_model_3x4 k i w).inst.ik_count from rfl, e6]
      exact h.2.2.1
    · rw [show (applyInstOp i (InstOp.eval k w)).ik_count = (ozz_eval_model_3x4 k i w).inst.ik_count from rfl, e6]
      exact h.2.2.2

/-- The descriptor-count invariant is preserved by any sequence of API calls. -/
theorem foldl_counts (ops : List InstOp) :
    ∀ i, CountsOk i → CountsOk (ops.foldl applyInstOp i) := by
  induction ops with
  | nil =>
    intro i h
    exact h
  | cons op rest ih =>
    intro i h
    exact ih _ (applyInstOp_counts i op h)

/-- C10: from a freshly initialized Instance, any sequence of set_layers /
set_ik_jobs / eval calls keeps both stored counts within [0, 8]; a null list or
non-positive count stores count 0; and evaluation observes only the first
layer_count / ik_count stored descriptors (instances agreeing on the active
prefixes evaluate identically). -/
theorem claim_C10_descriptor_count_invariant (sp : SizeParams) (mem : Nat) (sk : Skeleton)
    (i0 : Instance) (hinit : ozz_instance_init sp mem sk = Except.ok i0) (ops : List InstOp) :
    CountsOk (ops.foldl applyInstOp i0) ∧
    (∀ (j : Instance) (c : Int),
      (ozz_instance_set_layers j none c).layer_count = 0 ∧
      (ozz_instance_set_ik_jobs j none c).ik_count = 0) ∧
    (∀ (j : Instance) (l : List LayerDesc) (c : Int), c ≤ 0 →
      (ozz_instance_set_layers j (some l) c).layer_count = 0) ∧
    (∀ (j : Instance) (jl : List IkJob) (c : Int), c ≤ 0 →
      (ozz_instance_set_ik_jobs j (some jl) c).ik_count = 0) ∧
    (∀ (k : Kernel) (w : Workspace) (j j' : Instance),
      j.skel = j'.skel → j.num_joints = j'.num_joints → j.accum = j'.accum →
      j.layer_count = j'.layer_count → j.ik_count = j'.ik_count →
      activeLayers j = activeLayers j' → activeIk j = activeIk j' →
      (ozz_eval_model_3x4 k j w).result = (ozz_eval_model_3x4 k j' w).result ∧
      (ozz_eval_model_3x4 k j w).samples = (ozz_eval_model_3x4 k j' w).samples ∧
      (ozz_eval_model_3x4 k j w).ws = (ozz_eval_model_3x4 k j' w).ws ∧
      (ozz_eval_model_3x4 k j w).inst.accum = (ozz_eval_model_3x4 k j' w).inst.accum) := by
  refine ⟨?_, ?_, ?_, ?_, ?_⟩
  · have h0 : CountsOk i0 := by
      unfold ozz_instance_init at hinit
      split at hinit
      · cases hinit
        exact ⟨le_refl (0 : Int), (by decide : (0 : Int) ≤ OZZ_MAX_LAYERS),
          le_refl (0 : Int), (by decide : (0 : Int) ≤ OZZ_MAX_IK_JOBS)⟩
      · cases hinit
    exact foldl_counts ops i0 h0
  · intro j c
    exact ⟨rfl, rfl⟩
  · intro j l c hc
    show (ozz_instance_set_layers j (some l) c).layer_count = 0
    unfold ozz_instance_set_layers
    dsimp only
    rw [if_pos hc]
  · intro j jl c hc
    show (ozz_instance_set_ik_jobs j (some jl) c).ik_count = 0
    unfold ozz_instance_set_ik_jobs
    dsimp only
    rw [if_pos hc]
  · intro k w j j' a1 a2 a3 a4 a5 a6 a7
    exact eval_reads_active k w j j' a1 a2 a3 a4 a5 a6 a7

/-- C10 witness: the concrete initialized instance and a call sequence that
overfills the layer list. -/
theorem claim_C10_witness :
    CountsOk ([InstOp.set_layers (some (List.replicate 9 layer0)) 9,
        InstOp.eval kernel0 ws0].foldl applyInstOp
      { skel := skel0, num_joints := 1, accum := [], layersArr := [],
        layer_count := 0, ikArr := [], ik_count := 0 }) ∧
    (∀ (j : Instance) (c : Int),
      (ozz_instance_set_layers j none c).layer_count = 0 ∧
      (ozz_instance_set_ik_jobs j none c).ik_count = 0) ∧
    (∀ (j : Instance) (l : List LayerDesc) (c : Int), c ≤ 0 →
      (ozz_instance_set_layers j (some l) c).layer_count = 0) ∧
    (∀ (j : Instance) (jl : List IkJob) (c : Int), c ≤ 0 →
      (ozz_instance_set_ik_jobs j (some jl) c).ik_count = 0) ∧
    (∀ (k : Kernel) (w : Workspace) (j j' : Instance),
      j.skel = j'.skel → j.num_joints = j'.num_joints → j.accum = j'.accum →
      j.layer_count = j'.layer_count → j.ik_count = j'.ik_count →
      activeLayers j = activeLayers j' → activeIk j = activeIk j' →
      (ozz_eval_model_3x4 k j w).result = (ozz_eval_model_3x4 k j' w).result ∧
      (ozz_eval_model_3x4 k j w).samples = (ozz_eval_model_3x4 k j' w).samples ∧
      (ozz_eval_model_3x4 k j w).ws = (ozz_eval_model_3x4 k j' w).ws ∧
      (ozz_eval_model_3x4 k j w).inst.accum = (ozz_eval_model_3x4 k j' w).inst.accum) :=
  claim_C10_descriptor_count_invariant sp0 (ozz_instance_required_bytes sp0 skel0) skel0
    { skel := skel0, num_joints := 1, accum := [], layersArr := [],
      layer_count := 0, ikArr := [], ik_count := 0 }
    rfl
    [InstOp.set_layers (some (List.replicate 9 layer0)) 9, InstOp.eval kernel0 ws0]
